import Mathlib

/-!
# voile-interface-iopin

A shallow embedding of `voile_device_iopin.h`: the two enumerations
(`voileFunctionReturn`, `voileIOmode`), the token-pasting helper `COMBINE3`
and the four dispatch macros `IOpin_Init`, `IOpin_Write`, `IOpin_Read` and
`IOpin_ReadToReturn`.

The header holds no function body.  Each macro pastes the device token into
the name of a device function (`__<device>_Init`, ...) and into the name of
the device object (`<device>_`) and calls the former on the latter.  The
token reaches `COMBINE3` as an ordinary macro argument, hence macro-expanded,
whereas the operand of `device##_` is pasted as written.  The macros that
rename device tokens, the device objects and the device functions are
declared by `voile_devicelist.h` and the device library, which are not part
of the header; they are taken as a parameter (`Backend`).

The downgrade policy of lines 76-83 is documentation only.  Its chains are
transcribed in `fallbackChain`; the resolver that walks them is modelled
from the specification (`Resolve`), and so is the contract it puts on a
device init function (`InitFollowsDoc`).
-/

set_option autoImplicit false

namespace Voile

/-! ## Enumerations -/

/-- Return value meaning, `enum voileFunctionReturn` (lines 31-36). -/
inductive voileFunctionReturn
  | success
  | nomalError
  | inputRangeError
  | hardwareUnsupportedError
  deriving DecidableEq, Repr

/-- The integer each enumerator of `voileFunctionReturn` is defined as. -/
def voileFunctionReturn.toInt : voileFunctionReturn → Int
  | .success => 0
  | .nomalError => -1
  | .inputRangeError => -2
  | .hardwareUnsupportedError => -3

/-- IO mode selectors, `enum voileIOmode` (lines 49-56). -/
inductive voileIOmode
  | IOmodeInput
  | IOmodeInputWithPullUpResistor
  | IOmodeInputWithPullDownResistor
  | IOmodeQuasiBidirectional
  | IOmodePushPull
  | IOmodeOpenDrain
  deriving DecidableEq, Repr

/-- The integer each enumerator of `voileIOmode` is defined as. -/
def voileIOmode.toInt : voileIOmode → Int
  | .IOmodeInput => 0
  | .IOmodeInputWithPullUpResistor => 1
  | .IOmodeInputWithPullDownResistor => 2
  | .IOmodeQuasiBidirectional => 3
  | .IOmodePushPull => 4
  | .IOmodeOpenDrain => 5

/-- The enumerator an integer denotes, if any: a C `enum voileIOmode` object
can hold integers that no enumerator is defined as. -/
def voileIOmode.ofInt? (n : Int) : Option voileIOmode :=
  if n = 0 then some .IOmodeInput
  else if n = 1 then some .IOmodeInputWithPullUpResistor
  else if n = 2 then some .IOmodeInputWithPullDownResistor
  else if n = 3 then some .IOmodeQuasiBidirectional
  else if n = 4 then some .IOmodePushPull
  else if n = 5 then some .IOmodeOpenDrain
  else none

/-- The three modes that only sense the line: input, input with pull-up,
input with pull-down. -/
def voileIOmode.isInputClass : voileIOmode → Bool
  | .IOmodeInput => true
  | .IOmodeInputWithPullUpResistor => true
  | .IOmodeInputWithPullDownResistor => true
  | _ => false

/-- The three modes that can drive the line: quasi-bidirectional, push-pull,
open-drain. -/
def voileIOmode.isOutputCapable : voileIOmode → Bool
  | .IOmodeQuasiBidirectional => true
  | .IOmodePushPull => true
  | .IOmodeOpenDrain => true
  | _ => false

/-! ## The documented downgrade policy -/

/-- Modelled from the spec: CapabilitySet, the fixed list of IO modes a
backend realises without substitution.  The header declares no such
object. -/
abbrev CapabilitySet := List voileIOmode

/-- The downgrade order documented for `IOpin_Init` (lines 79-82): pull-up
and pull-down inputs downgrade to plain input; quasi-bidirectional to
open-drain then push-pull; open-drain to quasi-bidirectional then push-pull;
push-pull to quasi-bidirectional then open-drain.  Plain input has no
downgrade. -/
def fallbackChain : voileIOmode → List voileIOmode
  | .IOmodeInput => []
  | .IOmodeInputWithPullUpResistor => [.IOmodeInput]
  | .IOmodeInputWithPullDownResistor => [.IOmodeInput]
  | .IOmodeQuasiBidirectional => [.IOmodeOpenDrain, .IOmodePushPull]
  | .IOmodeOpenDrain => [.IOmodeQuasiBidirectional, .IOmodePushPull]
  | .IOmodePushPull => [.IOmodeQuasiBidirectional, .IOmodeOpenDrain]

/-- Modelled from the spec: ResolutionResult, the record a resolution
produces.  The header declares no such type. -/
structure ResolutionResult where
  requestedMode : voileIOmode
  resolvedMode : voileIOmode
  downgraded : Bool
  deriving DecidableEq, Repr

/-- Modelled from the spec: the walk of a fallback chain, entry by entry,
until a mode of the capability set is found or the chain is exhausted.  The
header has no resolver. -/
def walkChain (caps : CapabilitySet) : List voileIOmode → Option voileIOmode
  | [] => none
  | m :: rest => if m ∈ caps then some m else walkChain caps rest

/-- Modelled from the spec: Resolve(backend, requestedMode).  A supported
mode resolves to itself; an unsupported one to the first supported entry of
its fallback chain, flagged as a downgrade; an exhausted chain fails with
`hardwareUnsupportedError`.  The header has no resolver. -/
def Resolve (caps : CapabilitySet) (M : voileIOmode) :
    Except voileFunctionReturn ResolutionResult :=
  if M ∈ caps then .ok ⟨M, M, false⟩
  else
    match walkChain caps (fallbackChain M) with
    | some r => .ok ⟨M, r, true⟩
    | none => .error .hardwareUnsupportedError

/-- The mode `r` is the first entry of `chain` that is in `caps`: it is in
`caps`, and every entry before it is not. -/
def FirstSupported (caps : CapabilitySet) (chain : List voileIOmode) (r : voileIOmode) : Prop :=
  ∃ before after, chain = before ++ r :: after ∧ r ∈ caps ∧ ∀ m ∈ before, m ∉ caps


/-- Modelled from the spec: the contract of a backend init function `f`
whose capability set is `caps`, the set of modes it accepts without
substitution (spec 6), as the header documents it at lines 76-83: `f`
returns `hardwareUnsupportedError` exactly for the modes outside `caps`, and
when the resolution of a mode yields a resolved mode, `f` leaves the
hardware as it does when given the resolved mode.  The header holds no init
function. -/
def InitFollowsDoc {σ H : Type} (caps : CapabilitySet)
    (f : H → Int → Bool → σ → voileFunctionReturn × σ) : Prop :=
  ∀ (h : H) (M : voileIOmode) (value : Bool) (hw : σ),
    ((f h M.toInt value hw).1 = .hardwareUnsupportedError ↔ M ∉ caps) ∧
    (∀ r, Resolve caps M = .ok r →
      (f h M.toInt value hw).2 = (f h r.resolvedMode.toInt value hw).2)

/-! ## The dispatch macros -/

/-- Token pasting, `#define COMBINE3(a, b, c) a##b##c` (line 21). -/
def COMBINE3 (a b c : String) : String := a ++ b ++ c

/-- Object-like macros that stand for one identifier each, as a device list
defines them for device tokens (`#define LED latch`): the macro name and the
identifier it is replaced with. -/
abbrev MacroTable := List (String × String)

/-- Macro expansion of one identifier with at most `fuel` replacements: an
identifier that names a macro is replaced and the replacement is scanned
again, the macro just replaced being no longer available (a macro is not
replaced inside its own expansion). -/
def expandFuel : Nat → MacroTable → String → String
  | 0, _, tok => tok
  | fuel + 1, defs, tok =>
    match defs.lookup tok with
    | none => tok
    | some repl => expandFuel fuel (defs.filter fun d => d.1 != tok) repl

/-- Full macro expansion of one identifier: every replacement removes one
macro from the table, so as many replacements as the table has entries
suffice. -/
def expandToken (defs : MacroTable) (tok : String) : String :=
  expandFuel defs.length defs tok

/-- Width of the integer type an `enum voileIOmode` parameter has: the
enumerators are not negative, and the compatible type is `unsigned int`, 32
bits wide. -/
def enumParamBits : Nat := 32

/-- Conversion of an integer argument to an `enum voileIOmode` parameter:
reduction modulo 2^32. -/
def toEnumParam (n : Int) : Int := n % 2 ^ enumParamBits

/-- The declarations the macros rely on, which the header does not hold:
`defines`, the macros that rename device tokens, and for each identifier the
device object or device function it denotes once the translation unit is
preprocessed, if any.  `σ` is the hardware state the device functions act
on, `H` the type of device objects.  An init function receives the mode as
the value of its `enum voileIOmode` parameter; a read function receives the
content of the `bool` its pointer argument designates and returns the new
content. -/
structure Backend (σ H : Type) where
  defines : MacroTable
  object : String → Option H
  initFn : String → Option (H → Int → Bool → σ → voileFunctionReturn × σ)
  writeFn : String → Option (H → Bool → σ → voileFunctionReturn × σ)
  readFn : String → Option (H → Bool → σ → voileFunctionReturn × Bool × σ)
  readToReturnFn : String → Option (H → σ → Bool × σ)

/-- The macro of line 85,
`COMBINE3(__, device, _Init)(device##_, mode, value)`: the function name is
pasted from the macro-expanded device token, the object name from the token
as written, and `mode` is converted to the parameter type by the call;
`value` is the argument as a `bool`.  The result is `none` when one of the
two names denotes nothing. -/
def IOpin_Init {σ H : Type} (B : Backend σ H) (device : String) (mode : Int) (value : Bool)
    (hw : σ) : Option (voileFunctionReturn × σ) :=
  match B.initFn (COMBINE3 "__" (expandToken B.defines device) "_Init"),
    B.object (device ++ "_") with
  | some f, some h => some (f h (toEnumParam mode) value hw)
  | _, _ => none

/-- The macro of line 103,
`COMBINE3(__, device, _Write)(device##_, value)`. -/
def IOpin_Write {σ H : Type} (B : Backend σ H) (device : String) (value : Bool)
    (hw : σ) : Option (voileFunctionReturn × σ) :=
  match B.writeFn (COMBINE3 "__" (expandToken B.defines device) "_Write"),
    B.object (device ++ "_") with
  | some f, some h => some (f h value hw)
  | _, _ => none

/-- The macro of line 121,
`COMBINE3(__, device, _Read)(device##_, value)`; `out` is the content of the
`bool` that `value` points to. -/
def IOpin_Read {σ H : Type} (B : Backend σ H) (device : String) (out : Bool)
    (hw : σ) : Option (voileFunctionReturn × Bool × σ) :=
  match B.readFn (COMBINE3 "__" (expandToken B.defines device) "_Read"),
    B.object (device ++ "_") with
  | some f, some h => some (f h out hw)
  | _, _ => none

/-- The macro of line 138,
`COMBINE3(__, device, _ReadToReturn)(device##_)`. -/
def IOpin_ReadToReturn {σ H : Type} (B : Backend σ H) (device : String)
    (hw : σ) : Option (Bool × σ) :=
  match B.readToReturnFn (COMBINE3 "__" (expandToken B.defines device) "_ReadToReturn"),
    B.object (device ++ "_") with
  | some f, some h => some (f h hw)
  | _, _ => none

/-! ## A sample board -/

/-- Register of one pin of the sample board: the mode value and the output
level last stored. -/
structure PinReg where
  mode : Int
  level : Bool
  deriving DecidableEq, Repr

/-- Hardware state of the sample board: one register per pin, the device
object of a pin being its index. -/
abbrev Board := List PinReg

/-- The register of pin `h`. -/
def boardGet (b : Board) (h : Nat) : PinReg := b.getD h ⟨0, false⟩

/-- The board with the register of pin `h` replaced. -/
def boardPut (b : Board) (h : Nat) (r : PinReg) : Board := b.set h r

/-- The six modes. -/
def allModes : CapabilitySet :=
  [.IOmodeInput, .IOmodeInputWithPullUpResistor, .IOmodeInputWithPullDownResistor,
    .IOmodeQuasiBidirectional, .IOmodePushPull, .IOmodeOpenDrain]

/-- Capability set of the `sense` driver: input and input with pull-up. -/
def senseCaps : CapabilitySet := [.IOmodeInput, .IOmodeInputWithPullUpResistor]

/-- Capability set of the `drain` driver: input, push-pull, open-drain. -/
def drainCaps : CapabilitySet := [.IOmodeInput, .IOmodePushPull, .IOmodeOpenDrain]

/-- Init function of the `latch` driver: stores the mode value and the level
it is given, whatever they are, and reports success. -/
def latchInit (h : Nat) (mode : Int) (value : Bool) (b : Board) : voileFunctionReturn × Board :=
  (.success, boardPut b h ⟨mode, value⟩)

/-- Write function of the `latch` driver: stores the level and reports
success. -/
def latchWrite (h : Nat) (value : Bool) (b : Board) : voileFunctionReturn × Board :=
  (.success, boardPut b h ⟨(boardGet b h).mode, value⟩)

/-- Init function of a driver that does what lines 76-83 document, for the
capability set `caps`: a supported mode is stored and success reported; an
unsupported mode is downgraded along its chain and
`hardwareUnsupportedError` reported, the downgrade being to plain input when
the chain is exhausted; a value that is no mode is refused with
`inputRangeError`. -/
def docInit (caps : CapabilitySet) (h : Nat) (mode : Int) (value : Bool) (b : Board) :
    voileFunctionReturn × Board :=
  match voileIOmode.ofInt? mode with
  | none => (.inputRangeError, b)
  | some M =>
    match Resolve caps M with
    | .ok r =>
      (if r.downgraded then .hardwareUnsupportedError else .success,
        boardPut b h ⟨r.resolvedMode.toInt, value⟩)
    | .error _ =>
      (.hardwareUnsupportedError, boardPut b h ⟨voileIOmode.IOmodeInput.toInt, value⟩)

/-- Write function that refuses a pin in an input-class mode with
`nomalError`, leaving the board as it is, and otherwise stores the level. -/
def guardWrite (h : Nat) (value : Bool) (b : Board) : voileFunctionReturn × Board :=
  match (voileIOmode.ofInt? (boardGet b h).mode).map voileIOmode.isInputClass with
  | some false => (.success, boardPut b h ⟨(boardGet b h).mode, value⟩)
  | _ => (.nomalError, b)

/-- Read function of the sample drivers: stores the level through the
pointer and reports success. -/
def plainRead (h : Nat) (_ : Bool) (b : Board) : voileFunctionReturn × Bool × Board :=
  (.success, (boardGet b h).level, b)

/-- ReadToReturn function of the sample drivers: returns the level. -/
def plainReadToReturn (h : Nat) (b : Board) : Bool × Board :=
  ((boardGet b h).level, b)

/-- A sample board with three devices: `LED` on the `latch` driver, `BTN` on
the `sense` driver, `BUS` on the `drain` driver, with the objects `LED_`,
`BTN_`, `BUS_` and the functions `__latch_Init`, `__sense_Write`, ... -/
def sampleBoard : Backend Board Nat where
  defines := [("LED", "latch"), ("BTN", "sense"), ("BUS", "drain")]
  object n :=
    if n = "LED_" then some 0
    else if n = "BTN_" then some 1
    else if n = "BUS_" then some 2
    else none
  initFn n :=
    if n = "__latch_Init" then some latchInit
    else if n = "__sense_Init" then some (docInit senseCaps)
    else if n = "__drain_Init" then some (docInit drainCaps)
    else none
  writeFn n :=
    if n = "__latch_Write" then some latchWrite
    else if n = "__sense_Write" then some guardWrite
    else if n = "__drain_Write" then some guardWrite
    else none
  readFn n :=
    if n = "__latch_Read" ∨ n = "__sense_Read" ∨ n = "__drain_Read" then some plainRead
    else none
  readToReturnFn n :=
    if n = "__latch_ReadToReturn" ∨ n = "__sense_ReadToReturn" ∨ n = "__drain_ReadToReturn"
    then some plainReadToReturn
    else none

/-- State of the sample board with `LED` in plain input, `BTN` in input with
pull-up and `BUS` in plain input, every level low. -/
def board0 : Board := [⟨0, false⟩, ⟨1, false⟩, ⟨0, false⟩]

/-! ## Return codes -/

/-- C10: success is 0; the three other codes are -1, -2 and -3, hence
strictly negative and pairwise distinct; a status is success exactly when
its value is 0; and the test `status < 0` holds for
`hardwareUnsupportedError` as for every other non-success code. -/
theorem voileFunctionReturn_encoding :
    voileFunctionReturn.success.toInt = 0 ∧
    voileFunctionReturn.nomalError.toInt = -1 ∧
    voileFunctionReturn.inputRangeError.toInt = -2 ∧
    voileFunctionReturn.hardwareUnsupportedError.toInt = -3 ∧
    (∀ r : voileFunctionReturn, r ≠ .success → r.toInt < 0) ∧
    (∀ r s : voileFunctionReturn, r.toInt = s.toInt → r = s) ∧
    (∀ r : voileFunctionReturn, r = .success ↔ r.toInt = 0) ∧
    (∀ r : voileFunctionReturn, r.toInt < 0 ↔ r ≠ .success) ∧
    voileFunctionReturn.hardwareUnsupportedError.toInt < 0 := by
  refine ⟨rfl, rfl, rfl, rfl, ?_, ?_, ?_, ?_, by decide⟩
  · intro r hr
    cases r <;> simp [voileFunctionReturn.toInt] at hr ⊢
  · intro r s h
    cases r <;> cases s <;> simp [voileFunctionReturn.toInt] at h ⊢
  · intro r
    cases r <;> simp [voileFunctionReturn.toInt]
  · intro r
    cases r <;> simp [voileFunctionReturn.toInt]

/-! ## Resolution -/

/-- A walk that yields a mode yields the first supported entry of the
chain. -/
theorem walkChain_first (caps : CapabilitySet) (chain : List voileIOmode) (r : voileIOmode)
    (h : walkChain caps chain = some r) : FirstSupported caps chain r := by
  induction chain with
  | nil => simp [walkChain] at h
  | cons m rest ih =>
    unfold walkChain at h
    by_cases hm : m ∈ caps
    · rw [if_pos hm] at h
      cases h
      exact ⟨[], rest, rfl, hm, by simp⟩
    · rw [if_neg hm] at h
      obtain ⟨before, after, heq, hr, hb⟩ := ih h
      refine ⟨m :: before, after, by simp [heq], hr, ?_⟩
      intro x hx
      rcases List.mem_cons.mp hx with rfl | hx
      · exact hm
      · exact hb x hx

/-- A chain with a supported entry is not exhausted. -/
theorem walkChain_of_mem (caps : CapabilitySet) (chain : List voileIOmode)
    (h : ∃ m ∈ chain, m ∈ caps) : ∃ r, walkChain caps chain = some r := by
  induction chain with
  | nil => simp at h
  | cons m rest ih =>
    unfold walkChain
    by_cases hm : m ∈ caps
    · exact ⟨m, by rw [if_pos hm]⟩
    · rw [if_neg hm]
      apply ih
      obtain ⟨x, hx, hxc⟩ := h
      rcases List.mem_cons.mp hx with rfl | hx
      · exact absurd hxc hm
      · exact ⟨x, hx, hxc⟩

/-- A mode yielded by a walk is an entry of the chain and is supported. -/
theorem walkChain_mem (caps : CapabilitySet) (chain : List voileIOmode) (r : voileIOmode)
    (h : walkChain caps chain = some r) : r ∈ chain ∧ r ∈ caps := by
  obtain ⟨before, after, heq, hr, _⟩ := walkChain_first caps chain r h
  exact ⟨by simp [heq], hr⟩

/-- A successful resolution yields the requested mode when it is supported,
and otherwise a supported entry of its chain. -/
theorem Resolve_ok_cases (caps : CapabilitySet) (M : voileIOmode) (r : ResolutionResult)
    (h : Resolve caps M = .ok r) :
    r.resolvedMode = M ∨ (r.resolvedMode ∈ fallbackChain M ∧ r.resolvedMode ∈ caps) := by
  unfold Resolve at h
  by_cases hM : M ∈ caps
  · rw [if_pos hM] at h
    cases h
    exact Or.inl rfl
  · rw [if_neg hM] at h
    cases hw : walkChain caps (fallbackChain M) with
    | none => rw [hw] at h; cases h
    | some x =>
      rw [hw] at h
      cases h
      exact Or.inr (walkChain_mem caps _ x hw)

/-- C2: a requested mode that is in the capability set resolves to itself
with no downgrade; in particular plain input does so on every backend whose
capability set contains it. -/
theorem Resolve_supported (caps : CapabilitySet) (M : voileIOmode) (h : M ∈ caps) :
    (∃ r, Resolve caps M = .ok r ∧ r.requestedMode = M ∧ r.resolvedMode = M ∧
      r.downgraded = false) ∧
    (M = .IOmodeInput →
      Resolve caps .IOmodeInput = .ok ⟨.IOmodeInput, .IOmodeInput, false⟩) := by
  have hres : Resolve caps M = .ok ⟨M, M, false⟩ := by
    unfold Resolve
    rw [if_pos h]
  refine ⟨⟨_, hres, rfl, rfl, rfl⟩, ?_⟩
  intro hM
  subst hM
  exact hres

/-- Witness for `Resolve_supported`: plain input on a backend supporting
input and push-pull. -/
theorem Resolve_supported_witness :
    voileIOmode.IOmodeInput ∈ ([.IOmodeInput, .IOmodePushPull] : CapabilitySet) ∧
    ((∃ r, Resolve [.IOmodeInput, .IOmodePushPull] .IOmodeInput = .ok r ∧
        r.requestedMode = .IOmodeInput ∧ r.resolvedMode = .IOmodeInput ∧
        r.downgraded = false) ∧
      (voileIOmode.IOmodeInput = .IOmodeInput →
        Resolve [.IOmodeInput, .IOmodePushPull] .IOmodeInput =
          .ok ⟨.IOmodeInput, .IOmodeInput, false⟩)) :=
  ⟨by decide, Resolve_supported [.IOmodeInput, .IOmodePushPull] .IOmodeInput (by decide)⟩

/-- C1, amended: a requested mode that is not in the capability set, while
some entry of its fallback chain is, resolves with the downgrade flag set
to the first entry of its chain that is in the capability set; the chains
are input with pull-up to input, input with pull-down to input,
quasi-bidirectional to open-drain then push-pull, open-drain to
quasi-bidirectional then push-pull, push-pull to quasi-bidirectional then
open-drain, and none for input. -/
theorem Resolve_downgrade (caps : CapabilitySet) (M : voileIOmode) (hM : M ∉ caps)
    (hex : ∃ m ∈ fallbackChain M, m ∈ caps) :
    (∃ r, Resolve caps M = .ok r ∧ r.requestedMode = M ∧ r.downgraded = true ∧
      FirstSupported caps (fallbackChain M) r.resolvedMode) ∧
    fallbackChain .IOmodeInputWithPullUpResistor = [.IOmodeInput] ∧
    fallbackChain .IOmodeInputWithPullDownResistor = [.IOmodeInput] ∧
    fallbackChain .IOmodeQuasiBidirectional = [.IOmodeOpenDrain, .IOmodePushPull] ∧
    fallbackChain .IOmodeOpenDrain = [.IOmodeQuasiBidirectional, .IOmodePushPull] ∧
    fallbackChain .IOmodePushPull = [.IOmodeQuasiBidirectional, .IOmodeOpenDrain] ∧
    fallbackChain .IOmodeInput = [] := by
  obtain ⟨x, hx⟩ := walkChain_of_mem caps (fallbackChain M) hex
  refine ⟨⟨⟨M, x, true⟩, ?_, rfl, rfl, walkChain_first caps _ x hx⟩,
    rfl, rfl, rfl, rfl, rfl, rfl⟩
  unfold Resolve
  rw [if_neg hM, hx]

/-- Witness for `Resolve_downgrade`: quasi-bidirectional on a backend
supporting input, push-pull and open-drain resolves to open-drain. -/
theorem Resolve_downgrade_witness :
    voileIOmode.IOmodeQuasiBidirectional ∉
      ([.IOmodeInput, .IOmodePushPull, .IOmodeOpenDrain] : CapabilitySet) ∧
    (∃ m ∈ fallbackChain .IOmodeQuasiBidirectional,
      m ∈ ([.IOmodeInput, .IOmodePushPull, .IOmodeOpenDrain] : CapabilitySet)) ∧
    (∃ r, Resolve [.IOmodeInput, .IOmodePushPull, .IOmodeOpenDrain] .IOmodeQuasiBidirectional
        = .ok r ∧ r.requestedMode = .IOmodeQuasiBidirectional ∧ r.downgraded = true ∧
      FirstSupported [.IOmodeInput, .IOmodePushPull, .IOmodeOpenDrain]
        (fallbackChain .IOmodeQuasiBidirectional) r.resolvedMode) ∧
    Resolve [.IOmodeInput, .IOmodePushPull, .IOmodeOpenDrain] .IOmodeQuasiBidirectional
      = .ok ⟨.IOmodeQuasiBidirectional, .IOmodeOpenDrain, true⟩ :=
  ⟨by decide, ⟨.IOmodeOpenDrain, by decide, by decide⟩,
    (Resolve_downgrade [.IOmodeInput, .IOmodePushPull, .IOmodeOpenDrain]
      .IOmodeQuasiBidirectional (by decide) ⟨.IOmodeOpenDrain, by decide, by decide⟩).1,
    rfl⟩

/-- C1, as stated, fails: push-pull is not in the capability set of an
input-only backend, and its resolution yields no result at all, so neither
a downgrade flag nor a first supported chain entry. -/
theorem Resolve_downgrade_fails_when_exhausted :
    voileIOmode.IOmodePushPull ∉ ([.IOmodeInput] : CapabilitySet) ∧
    Resolve [.IOmodeInput] .IOmodePushPull = .error .hardwareUnsupportedError ∧
    ¬ ∃ r, Resolve [.IOmodeInput] .IOmodePushPull = .ok r ∧ r.downgraded = true ∧
      FirstSupported [.IOmodeInput] (fallbackChain .IOmodePushPull) r.resolvedMode := by
  refine ⟨by decide, rfl, ?_⟩
  rintro ⟨r, hr, -, -⟩
  have h : Resolve [.IOmodeInput] .IOmodePushPull = .error .hardwareUnsupportedError := rfl
  rw [h] at hr
  cases hr

/-- C9: every entry of a documented fallback chain is in the class, input or
output-capable, of the mode the chain belongs to; a successful resolution of
an input-class mode is an input-class mode and of an output-capable mode an
output-capable mode; and the resolution of an output-capable mode succeeds
exactly when the capability set holds at least one of the three
output-capable modes. -/
theorem Resolve_stays_in_class :
    (∀ (M m : voileIOmode), m ∈ fallbackChain M →
      m.isInputClass = M.isInputClass ∧ m.isOutputCapable = M.isOutputCapable) ∧
    (∀ (caps : CapabilitySet) (M : voileIOmode) (r : ResolutionResult),
      Resolve caps M = .ok r →
        (M.isInputClass = true → r.resolvedMode.isInputClass = true) ∧
        (M.isOutputCapable = true → r.resolvedMode.isOutputCapable = true)) ∧
    (∀ (caps : CapabilitySet) (M : voileIOmode), M.isOutputCapable = true →
      ((∃ r, Resolve caps M = .ok r) ↔
        (voileIOmode.IOmodeQuasiBidirectional ∈ caps ∨ voileIOmode.IOmodePushPull ∈ caps ∨
          voileIOmode.IOmodeOpenDrain ∈ caps))) := by
  refine ⟨?_, ?_, ?_⟩
  · intro M m hm
    cases M <;> simp [fallbackChain] at hm <;>
      first
        | (subst hm; simp [voileIOmode.isInputClass, voileIOmode.isOutputCapable])
        | (rcases hm with rfl | rfl <;>
            simp [voileIOmode.isInputClass, voileIOmode.isOutputCapable])
  · intro caps M r h
    rcases Resolve_ok_cases caps M r h with heq | ⟨hmem, -⟩
    · rw [heq]
      exact ⟨id, id⟩
    · cases M <;> simp [fallbackChain] at hmem <;>
        (try rcases hmem with hmem | hmem) <;> simp [hmem, voileIOmode.isInputClass,
          voileIOmode.isOutputCapable]
  · intro caps M hout
    constructor
    · rintro ⟨r, h⟩
      rcases Resolve_ok_cases caps M r h with heq | ⟨hmem, hcaps⟩
      · have hM : M ∈ caps := by
          by_contra hM
          obtain ⟨hmem, -⟩ : r.resolvedMode ∈ fallbackChain M ∧ r.resolvedMode ∈ caps := by
            unfold Resolve at h
            rw [if_neg hM] at h
            cases hw : walkChain caps (fallbackChain M) with
            | none => rw [hw] at h; cases h
            | some x =>
              rw [hw] at h
              cases h
              exact walkChain_mem caps _ x hw
          rw [heq] at hmem
          cases M <;> simp [fallbackChain] at hmem
        cases M <;> simp [voileIOmode.isOutputCapable] at hout <;> simp [hM]
      · cases M <;> simp [voileIOmode.isOutputCapable] at hout <;>
          simp [fallbackChain] at hmem <;> rcases hmem with hmem | hmem <;>
          rw [hmem] at hcaps <;> simp [hcaps]
    · intro hcap
      by_cases hM : M ∈ caps
      · exact ⟨⟨M, M, false⟩, by unfold Resolve; rw [if_pos hM]⟩
      · have hex : ∃ m ∈ fallbackChain M, m ∈ caps := by
          cases M <;> simp [voileIOmode.isOutputCapable] at hout <;>
            simp [fallbackChain] <;> tauto
        obtain ⟨x, hx⟩ := walkChain_of_mem caps (fallbackChain M) hex
        exact ⟨⟨M, x, true⟩, by unfold Resolve; rw [if_neg hM, hx]⟩


/-- A successful resolution is either of a supported mode, to itself without
downgrade, or of an unsupported mode, to a supported one with downgrade. -/
theorem Resolve_ok_shape (caps : CapabilitySet) (M : voileIOmode) (r : ResolutionResult)
    (h : Resolve caps M = .ok r) :
    (M ∈ caps ∧ r = ⟨M, M, false⟩) ∨
    (M ∉ caps ∧ r.downgraded = true ∧ r.resolvedMode ∈ caps ∧ r.requestedMode = M) := by
  unfold Resolve at h
  by_cases hM : M ∈ caps
  · rw [if_pos hM] at h
    cases h
    exact Or.inl ⟨hM, rfl⟩
  · rw [if_neg hM] at h
    cases hw : walkChain caps (fallbackChain M) with
    | none => rw [hw] at h; cases h
    | some x =>
      rw [hw] at h
      cases h
      exact Or.inr ⟨hM, rfl, (walkChain_mem caps _ x hw).2, rfl⟩

/-! ## Macro expansion and parameter conversion -/

/-- Removing the macro that was just replaced shortens the table. -/
theorem filter_length_lt_of_lookup (defs : MacroTable) (tok repl : String)
    (h : defs.lookup tok = some repl) :
    (defs.filter fun d => d.1 != tok).length < defs.length := by
  induction defs with
  | nil => simp [List.lookup] at h
  | cons d rest ih =>
    obtain ⟨k, v⟩ := d
    by_cases hk : k = tok
    · subst hk
      have hle := List.length_filter_le (fun d : String × String => d.1 != k) rest
      simp only [List.filter_cons, bne_self_eq_false, Bool.false_eq_true, if_false,
        List.length_cons]
      omega
    · have hne : (tok == k) = false := by
        simp only [beq_eq_false_iff_ne, ne_eq]
        exact fun e => hk e.symm
      have hlook : rest.lookup tok = some repl := by
        simpa [List.lookup, hne] using h
      have hkeep : (k != tok) = true := by
        simp only [bne_iff_ne, ne_eq]
        exact hk
      have := ih hlook
      simp only [List.filter_cons, hkeep, if_true, List.length_cons]
      omega

/-- Any two amounts of fuel that reach the length of the table give the same
expansion: the expansion never runs out of fuel. -/
theorem expandFuel_enough (n m : Nat) (defs : MacroTable) (tok : String)
    (hn : defs.length ≤ n) (hm : defs.length ≤ m) :
    expandFuel n defs tok = expandFuel m defs tok := by
  induction n generalizing m defs tok with
  | zero =>
    have hnil : defs = [] := List.eq_nil_of_length_eq_zero (by omega)
    subst hnil
    cases m with
    | zero => rfl
    | succ m => simp [expandFuel, List.lookup]
  | succ n ih =>
    cases m with
    | zero =>
      have hnil : defs = [] := List.eq_nil_of_length_eq_zero (by omega)
      subst hnil
      simp [expandFuel, List.lookup]
    | succ m =>
      unfold expandFuel
      cases hl : defs.lookup tok with
      | none => rfl
      | some repl =>
        have hlt := filter_length_lt_of_lookup defs tok repl hl
        exact ih m _ repl (by omega) (by omega)

/-- With fuel enough for the table, the expansion is the full expansion. -/
theorem expandFuel_eq_expandToken (n : Nat) (defs : MacroTable) (tok : String)
    (hn : defs.length ≤ n) : expandFuel n defs tok = expandToken defs tok :=
  expandFuel_enough n defs.length defs tok hn (Nat.le_refl _)

/-- An identifier that names no macro expands to itself. -/
theorem expandToken_of_not_defined (defs : MacroTable) (tok : String)
    (h : defs.lookup tok = none) : expandToken defs tok = tok := by
  unfold expandToken
  cases hlen : defs.length with
  | zero => rfl
  | succ n => simp [expandFuel, h]

/-- A parameter value above 5 denotes no enumerator. -/
theorem ofInt?_of_gt (n : Int) (h : 5 < n) : voileIOmode.ofInt? n = none := by
  unfold voileIOmode.ofInt?
  have h0 : n ≠ 0 := by omega
  have h1 : n ≠ 1 := by omega
  have h2 : n ≠ 2 := by omega
  have h3 : n ≠ 3 := by omega
  have h4 : n ≠ 4 := by omega
  have h5 : n ≠ 5 := by omega
  simp [h0, h1, h2, h3, h4, h5]

/-- A parameter value is not negative and below 2^32. -/
theorem toEnumParam_range (n : Int) : 0 ≤ toEnumParam n ∧ toEnumParam n < 4294967296 := by
  unfold toEnumParam enumParamBits
  constructor
  · exact Int.emod_nonneg n (by norm_num)
  · exact Int.emod_lt_of_pos n (by norm_num)

/-! ## The sample drivers follow the documentation -/

/-- The `latch` init function accepts the six modes without substitution. -/
theorem latchInit_follows : InitFollowsDoc allModes latchInit := by
  intro h M value hw
  have hM : M ∈ allModes := by cases M <;> decide
  refine ⟨⟨fun e => by simp [latchInit] at e, fun e => absurd hM e⟩, ?_⟩
  intro r hr
  rcases Resolve_ok_shape allModes M r hr with ⟨-, rfl⟩ | ⟨hn, -⟩
  · rfl
  · exact absurd hM hn

/-- `IOpin_Init` is the call of the init function named after the expanded
device token on the object named after the token as written, with the mode
converted to the parameter type and the value as given. -/
theorem IOpin_Init_forward {σ H : Type} (B : Backend σ H) (device : String) (mode : Int)
    (value : Bool) (hw : σ) (f : H → Int → Bool → σ → voileFunctionReturn × σ) (h : H)
    (hf : B.initFn ("__" ++ expandToken B.defines device ++ "_Init") = some f)
    (hh : B.object (device ++ "_") = some h) :
    IOpin_Init B device mode value hw = some (f h (toEnumParam mode) value hw) := by
  unfold IOpin_Init COMBINE3
  rw [hf, hh]

/-- `IOpin_Write` is the call of the write function named after the expanded
device token on the object named after the token as written. -/
theorem IOpin_Write_forward {σ H : Type} (B : Backend σ H) (device : String)
    (value : Bool) (hw : σ) (f : H → Bool → σ → voileFunctionReturn × σ) (h : H)
    (hf : B.writeFn ("__" ++ expandToken B.defines device ++ "_Write") = some f)
    (hh : B.object (device ++ "_") = some h) :
    IOpin_Write B device value hw = some (f h value hw) := by
  unfold IOpin_Write COMBINE3
  rw [hf, hh]

/-- `IOpin_Read` is the call of the read function named after the expanded
device token on the object named after the token as written. -/
theorem IOpin_Read_forward {σ H : Type} (B : Backend σ H) (device : String)
    (out : Bool) (hw : σ) (f : H → Bool → σ → voileFunctionReturn × Bool × σ) (h : H)
    (hf : B.readFn ("__" ++ expandToken B.defines device ++ "_Read") = some f)
    (hh : B.object (device ++ "_") = some h) :
    IOpin_Read B device out hw = some (f h out hw) := by
  unfold IOpin_Read COMBINE3
  rw [hf, hh]

/-- `IOpin_ReadToReturn` is the call of the read-to-return function named
after the expanded device token on the object named after the token as
written. -/
theorem IOpin_ReadToReturn_forward {σ H : Type} (B : Backend σ H) (device : String)
    (hw : σ) (f : H → σ → Bool × σ) (h : H)
    (hf : B.readToReturnFn ("__" ++ expandToken B.defines device ++ "_ReadToReturn") = some f)
    (hh : B.object (device ++ "_") = some h) :
    IOpin_ReadToReturn B device hw = some (f h hw) := by
  unfold IOpin_ReadToReturn COMBINE3
  rw [hf, hh]

/-- C6: for a declared device, `IOpin_Write` returns exactly what the write
function of the device returns on the device object and the same value,
`IOpin_Read` and `IOpin_ReadToReturn` exactly what its read and
read-to-return functions return on that object; the function is the one
named after the macro-expanded device token, the object the one named after
the token as written; and none of the three results depends on the init
functions of the backend, in which its capability set lies. -/
theorem IOpin_Write_Read_passthrough {σ H : Type} (B : Backend σ H) (device : String)
    (value out : Bool) (hw : σ) (h : H)
    (fw : H → Bool → σ → voileFunctionReturn × σ)
    (fr : H → Bool → σ → voileFunctionReturn × Bool × σ)
    (frr : H → σ → Bool × σ)
    (hh : B.object (device ++ "_") = some h)
    (hfw : B.writeFn ("__" ++ expandToken B.defines device ++ "_Write") = some fw)
    (hfr : B.readFn ("__" ++ expandToken B.defines device ++ "_Read") = some fr)
    (hfrr : B.readToReturnFn ("__" ++ expandToken B.defines device ++ "_ReadToReturn")
      = some frr) :
    IOpin_Write B device value hw = some (fw h value hw) ∧
    IOpin_Read B device out hw = some (fr h out hw) ∧
    IOpin_ReadToReturn B device hw = some (frr h hw) ∧
    ∀ initFn : String → Option (H → Int → Bool → σ → voileFunctionReturn × σ),
      IOpin_Write { B with initFn := initFn } device value hw = some (fw h value hw) ∧
      IOpin_Read { B with initFn := initFn } device out hw = some (fr h out hw) ∧
      IOpin_ReadToReturn { B with initFn := initFn } device hw = some (frr h hw) :=
  ⟨IOpin_Write_forward B device value hw fw h hfw hh,
    IOpin_Read_forward B device out hw fr h hfr hh,
    IOpin_ReadToReturn_forward B device hw frr h hfrr hh,
    fun initFn =>
      ⟨IOpin_Write_forward { B with initFn := initFn } device value hw fw h hfw hh,
        IOpin_Read_forward { B with initFn := initFn } device out hw fr h hfr hh,
        IOpin_ReadToReturn_forward { B with initFn := initFn } device hw frr h hfrr hh⟩⟩

/-- Witness for `IOpin_Write_Read_passthrough`: device `BTN` of the sample
board, whose token expands to `sense` and whose object `BTN_` is pin 1:
the calls are `__sense_Write(BTN_, 1)`, `__sense_Read(BTN_, ...)` and
`__sense_ReadToReturn(BTN_)`, the write being refused on the input pin. -/
theorem IOpin_Write_Read_passthrough_witness :
    sampleBoard.object ("BTN" ++ "_") = some 1 ∧
    sampleBoard.writeFn ("__" ++ expandToken sampleBoard.defines "BTN" ++ "_Write")
      = some guardWrite ∧
    sampleBoard.readFn ("__" ++ expandToken sampleBoard.defines "BTN" ++ "_Read")
      = some plainRead ∧
    sampleBoard.readToReturnFn
      ("__" ++ expandToken sampleBoard.defines "BTN" ++ "_ReadToReturn")
      = some plainReadToReturn ∧
    "__" ++ expandToken sampleBoard.defines "BTN" ++ "_Write" = "__sense_Write" ∧
    guardWrite 1 true board0 = (.nomalError, board0) ∧
    plainRead 1 true board0 = (.success, false, board0) ∧
    (IOpin_Write sampleBoard "BTN" true board0 = some (guardWrite 1 true board0) ∧
      IOpin_Read sampleBoard "BTN" true board0 = some (plainRead 1 true board0) ∧
      IOpin_ReadToReturn sampleBoard "BTN" board0 = some (plainReadToReturn 1 board0) ∧
      ∀ initFn : String → Option (Nat → Int → Bool → Board → voileFunctionReturn × Board),
        IOpin_Write { sampleBoard with initFn := initFn } "BTN" true board0
          = some (guardWrite 1 true board0) ∧
        IOpin_Read { sampleBoard with initFn := initFn } "BTN" true board0
          = some (plainRead 1 true board0) ∧
        IOpin_ReadToReturn { sampleBoard with initFn := initFn } "BTN" board0
          = some (plainReadToReturn 1 board0)) :=
  ⟨rfl, rfl, rfl, rfl, by decide, by decide, by decide,
    IOpin_Write_Read_passthrough sampleBoard "BTN" true true board0 1
      guardWrite plainRead plainReadToReturn rfl rfl rfl rfl⟩

/-- C8, amended: on a declared device, whatever the mode of its pin,
`IOpin_Write` returns `nomalError` and leaves the hardware state unchanged
exactly when the write function of the device does so on the device object;
the macro adds no check of the pin mode. -/
theorem IOpin_Write_nomalError_iff {σ H : Type} (B : Backend σ H) (device : String)
    (value : Bool) (hw : σ) (f : H → Bool → σ → voileFunctionReturn × σ) (h : H)
    (hf : B.writeFn ("__" ++ expandToken B.defines device ++ "_Write") = some f)
    (hh : B.object (device ++ "_") = some h) :
    IOpin_Write B device value hw = some (.nomalError, hw) ↔
      f h value hw = (.nomalError, hw) := by
  rw [IOpin_Write_forward B device value hw f h hf hh]
  exact ⟨fun e => Option.some.inj e, fun e => congrArg some e⟩

/-- Witness for `IOpin_Write_nomalError_iff`: device `BTN` of the sample
board, its pin in input with pull-up; the write function refuses the write,
and so does `IOpin_Write`. -/
theorem IOpin_Write_nomalError_iff_witness :
    sampleBoard.writeFn ("__" ++ expandToken sampleBoard.defines "BTN" ++ "_Write")
      = some guardWrite ∧
    sampleBoard.object ("BTN" ++ "_") = some 1 ∧
    guardWrite 1 true board0 = (.nomalError, board0) ∧
    IOpin_Write sampleBoard "BTN" true board0 = some (.nomalError, board0) ∧
    (IOpin_Write sampleBoard "BTN" true board0 = some (.nomalError, board0) ↔
      guardWrite 1 true board0 = (.nomalError, board0)) :=
  ⟨rfl, rfl, by decide, by decide,
    IOpin_Write_nomalError_iff sampleBoard "BTN" true board0 guardWrite 1 rfl rfl⟩

/-- C8, as stated, fails: the `latch` driver of the sample board accepts
the six modes; `IOpin_Init` of `LED` with plain input leaves its pin in
input mode, and `IOpin_Write` of a high level then returns `success`, not
`nomalError`, and the stored level has changed. -/
theorem IOpin_Write_on_input_pin :
    InitFollowsDoc allModes latchInit ∧
    sampleBoard.initFn ("__" ++ expandToken sampleBoard.defines "LED" ++ "_Init")
      = some latchInit ∧
    IOpin_Init sampleBoard "LED" voileIOmode.IOmodeInput.toInt false
        [⟨4, true⟩, ⟨1, false⟩, ⟨0, false⟩] = some (.success, board0) ∧
    (voileIOmode.ofInt? (boardGet board0 0).mode).map voileIOmode.isInputClass = some true ∧
    IOpin_Write sampleBoard "LED" true board0 =
      some (.success, [⟨0, true⟩, ⟨1, false⟩, ⟨0, false⟩]) ∧
    IOpin_Write sampleBoard "LED" true board0 ≠ some (.nomalError, board0) := by
  refine ⟨latchInit_follows, rfl, ?_, ?_, ?_, ?_⟩ <;> decide

/-! ## Init -/

/-- C5, amended: on a declared device, `IOpin_Init` with a mode argument
whose value as an `enum voileIOmode` parameter is above 5, hence none of the
six modes, calls the init function of the device with that value and
returns its result; it returns `inputRangeError` with the hardware state
unchanged exactly when that function does. -/
theorem IOpin_Init_out_of_range {σ H : Type} (B : Backend σ H) (device : String)
    (mode : Int) (value : Bool) (hw : σ)
    (f : H → Int → Bool → σ → voileFunctionReturn × σ) (h : H)
    (hmode : 5 < toEnumParam mode)
    (hf : B.initFn ("__" ++ expandToken B.defines device ++ "_Init") = some f)
    (hh : B.object (device ++ "_") = some h) :
    voileIOmode.ofInt? (toEnumParam mode) = none ∧
    IOpin_Init B device mode value hw = some (f h (toEnumParam mode) value hw) ∧
    (IOpin_Init B device mode value hw = some (.inputRangeError, hw) ↔
      f h (toEnumParam mode) value hw = (.inputRangeError, hw)) := by
  refine ⟨ofInt?_of_gt _ hmode, IOpin_Init_forward B device mode value hw f h hf hh, ?_⟩
  rw [IOpin_Init_forward B device mode value hw f h hf hh]
  exact ⟨fun e => Option.some.inj e, fun e => congrArg some e⟩

/-- Witness for `IOpin_Init_out_of_range`: the argument -1 on device `BTN`
of the sample board reaches `__sense_Init` as 4294967295, which that
function refuses with `inputRangeError`, leaving the board as it is. -/
theorem IOpin_Init_out_of_range_witness :
    5 < toEnumParam (-1) ∧
    sampleBoard.initFn ("__" ++ expandToken sampleBoard.defines "BTN" ++ "_Init")
      = some (docInit senseCaps) ∧
    sampleBoard.object ("BTN" ++ "_") = some 1 ∧
    toEnumParam (-1) = 4294967295 ∧
    docInit senseCaps 1 4294967295 true board0 = (.inputRangeError, board0) ∧
    (voileIOmode.ofInt? (toEnumParam (-1)) = none ∧
      IOpin_Init sampleBoard "BTN" (-1) true board0
        = some (docInit senseCaps 1 (toEnumParam (-1)) true board0) ∧
      (IOpin_Init sampleBoard "BTN" (-1) true board0 = some (.inputRangeError, board0) ↔
        docInit senseCaps 1 (toEnumParam (-1)) true board0 = (.inputRangeError, board0))) :=
  ⟨by decide, rfl, rfl, by decide, by decide,
    IOpin_Init_out_of_range sampleBoard "BTN" (-1) true board0 (docInit senseCaps) 1
      (by decide) rfl rfl⟩

/-- C5, as stated, fails: on device `LED` of the sample board, `IOpin_Init`
with the mode value 7, which is none of the six modes, calls
`__latch_Init`, which stores 7 and a high level, and returns `success`, not
`inputRangeError`. -/
theorem IOpin_Init_out_of_range_calls_backend :
    toEnumParam 7 = 7 ∧
    voileIOmode.ofInt? 7 = none ∧
    sampleBoard.initFn ("__" ++ expandToken sampleBoard.defines "LED" ++ "_Init")
      = some latchInit ∧
    IOpin_Init sampleBoard "LED" 7 true board0
      = some (.success, [⟨7, true⟩, ⟨1, false⟩, ⟨0, false⟩]) ∧
    IOpin_Init sampleBoard "LED" 7 true board0 ≠ some (.inputRangeError, board0) := by
  refine ⟨by decide, by decide, rfl, ?_, ?_⟩ <;> decide

end Voile
